import Mathlib

/-!
Shallow embedding of the coio coroutine runtime (kingxsp/coio-rs) used to
settle the frozen claims about its specification.

The embedding covers:
  * the coroutine-aware MPSC and bounded MPSC channels (src/sync/mpsc.rs),
  * the per-thread processor: resume dispatch, spawn, yield, and the
    scheduling loop (src/runtime/processor.rs),
  * the I/O adapter contract and the nonblocking-retry template of the
    network adapters (src/io.rs, src/net/tcp.rs, src/net/udp.rs,
    src/net/unix.rs).

Stateful Rust code is embedded by explicit state passing; points where a
concurrent thread may interleave (snapshots of a channel observed by
try_recv, the is_exiting flag observed after a context switch, outcomes of
nonblocking syscalls) are supplied as explicit environment parameters, so
every definition is executable on concrete inputs.
-/

set_option autoImplicit false

namespace Coio

/-- Coroutine run state, from the coroutine module referenced by
processor.rs (enum with variants Suspended, Blocked, Finished). -/
inductive State
  | Suspended
  | Blocked
  | Finished
deriving DecidableEq, Repr

/-- A coroutine handle (a uniquely owning reference to a coroutine).
We model the identity as a number, together with the recorded preferred
processor, since set_preferred_processor is the only coroutine operation
the embedded code uses. -/
structure Handle where
  id : Nat
  preferred : Option Nat
deriving DecidableEq, Repr

/-- Coroutine::set_preferred_processor, as called in processor.rs. -/
def Handle.set_preferred_processor (h : Handle) (p : Option Nat) : Handle :=
  { h with preferred := p }

/-! ## Channels (src/sync/mpsc.rs)

The underlying std `mpsc::channel` queue, as observed by one call site.
Concurrent senders may change the queue between observations, so the recv
loop below consumes a trace of snapshots supplied by the environment. -/

/-- A snapshot of the underlying std mpsc queue. `senders_dropped` means
every Sender has been dropped; `receiver_dropped` means the Receiver has
been dropped. -/
structure MpscChan (α : Type) where
  queue : List α
  senders_dropped : Bool
  receiver_dropped : Bool
deriving Repr

/-- std TryRecvError. -/
inductive TryRecvError
  | Empty
  | Disconnected
deriving DecidableEq, Repr

/-- The behavior of the underlying std try_recv on a snapshot: a queued
value is returned even when disconnected; on an empty queue the error is
Disconnected when every sender is gone and Empty otherwise. -/
def mpsc_try_recv {α : Type} (s : MpscChan α) : Except TryRecvError α × MpscChan α :=
  match s.queue with
  | v :: rest => (.ok v, { s with queue := rest })
  | [] => (.error (if s.senders_dropped then .Disconnected else .Empty), s)

/-- Sender::send (mpsc.rs lines 45-56): try the underlying send; on
success, lock the wait list, pop one waiter from the front (if any) and
hand it to Scheduler::ready. The fourth component is the woken waiter.
On failure the value is handed back and the wait list is untouched. -/
def Sender_send {α : Type} (ch : MpscChan α) (wait_list : List Handle) (v : α) :
    Except α Unit × MpscChan α × List Handle × Option Handle :=
  if ch.receiver_dropped then
    (.error v, ch, wait_list, none)
  else
    (.ok (), { ch with queue := ch.queue ++ [v] }, wait_list.tail, wait_list.head?)

/-- What the parking callback in Receiver::recv does with the just-yielded
handle. -/
inductive ParkEvent
  | pushedBack
  | readied
deriving DecidableEq, Repr

/-- The callback Receiver::recv passes to take_current_coroutine
(mpsc.rs lines 86-104): with the wait list locked, re-run try_recv; if
still Empty push the handle onto the back of the wait list, otherwise
ready it on the current processor (whose local deque push inserts at the
pop end). Returns the re-check result, the new wait list, the new local
deque and the recorded event. -/
def recv_park_cb {α : Type} (ch : MpscChan α) (wait_list runq : List Handle)
    (coro : Handle) :
    Except TryRecvError α × List Handle × List Handle × ParkEvent :=
  let r := (mpsc_try_recv ch).1
  match r with
  | .error .Empty => (r, wait_list ++ [coro], runq, .pushedBack)
  | _ => (r, wait_list, coro :: runq, .readied)

/-- What one parking callback observes: the channel snapshot at the
double check, and the wait list and local deque contents at that moment
(both controlled by the environment between iterations). -/
structure RecvObs (α : Type) where
  chan : MpscChan α
  wait_list : List Handle
  runq : List Handle

/-- The loop body of Receiver::recv (mpsc.rs lines 77-105). `r` is the
pending try_recv result examined at the top of the loop (the initial
try_recv before the loop, or the double-check result of the previous
iteration); each parking callback consumes one observation. Yields the
final result (none if the fuel or the observation trace runs out while
parked) and, per iteration, the event together with the wait list and
local deque the callback produced. -/
def recv_loop {α : Type} (coro : Handle) :
    Nat → Except TryRecvError α → List (RecvObs α) →
    Option (Except Unit α) × List (ParkEvent × List Handle × List Handle)
  | 0, _, _ => (none, [])
  | _ + 1, .ok v, _ => (some (.ok v), [])
  | _ + 1, .error .Disconnected, _ => (some (.error ()), [])
  | _ + 1, .error .Empty, [] => (none, [])
  | fuel + 1, .error .Empty, obs :: rest =>
    let step := recv_park_cb obs.chan obs.wait_list obs.runq coro
    let cont := recv_loop coro fuel step.1 rest
    (cont.1, (step.2.2.2, step.2.1, step.2.2.1) :: cont.2)

/-- Receiver::recv on a thread with a current processor: one try_recv
before the loop, then the loop. -/
def Receiver_recv {α : Type} (coro : Handle) (fuel : Nat) (ch0 : MpscChan α)
    (obs : List (RecvObs α)) :
    Option (Except Unit α) × List (ParkEvent × List Handle × List Handle) :=
  recv_loop coro fuel (mpsc_try_recv ch0).1 obs

/-! ### Bounded channel (sync_channel) -/

/-- A snapshot of the underlying std sync_channel queue with its bound. -/
structure SyncChan (α : Type) where
  queue : List α
  bound : Nat
  senders_dropped : Bool
  receiver_dropped : Bool
deriving Repr

/-- std TrySendError, carrying the value back. -/
inductive TrySendErr (α : Type)
  | Full (v : α)
  | Disconnected (v : α)
deriving DecidableEq, Repr

/-- The underlying std sync_channel try_send on a snapshot. -/
def sync_inner_try_send {α : Type} (s : SyncChan α) (v : α) :
    Except (TrySendErr α) Unit × SyncChan α :=
  if s.receiver_dropped then (.error (.Disconnected v), s)
  else if s.queue.length < s.bound then (.ok (), { s with queue := s.queue ++ [v] })
  else (.error (.Full v), s)

/-- The underlying std sync_channel try_recv on a snapshot. -/
def sync_inner_try_recv {α : Type} (s : SyncChan α) : Except TryRecvError α × SyncChan α :=
  match s.queue with
  | v :: rest => (.ok v, { s with queue := rest })
  | [] => (.error (if s.senders_dropped then .Disconnected else .Empty), s)

/-- SyncSender::try_send (mpsc.rs lines 141-152): on a successful
underlying try_send, pop one waiter from the front of the recv wait list
(if any) and hand it to Scheduler::ready; on failure the wait list is
untouched. The last component is the woken waiter. -/
def SyncSender_try_send {α : Type} (ch : SyncChan α) (recv_wait_list : List Handle)
    (v : α) :
    Except (TrySendErr α) Unit × SyncChan α × List Handle × Option Handle :=
  match sync_inner_try_send ch v with
  | (.ok _, ch') => (.ok (), ch', recv_wait_list.tail, recv_wait_list.head?)
  | (.error e, ch') => (.error e, ch', recv_wait_list, none)

/-- SyncReceiver::try_recv (mpsc.rs lines 207-218): on a successful
underlying try_recv, pop one waiter from the front of the send wait list
(if any) and hand it to Scheduler::ready; on failure the wait list is
untouched. The last component is the woken waiter. -/
def SyncReceiver_try_recv {α : Type} (ch : SyncChan α) (send_wait_list : List Handle) :
    Except TryRecvError α × SyncChan α × List Handle × Option Handle :=
  match sync_inner_try_recv ch with
  | (.ok v, ch') => (.ok v, ch', send_wait_list.tail, send_wait_list.head?)
  | (.error e, ch') => (.error e, ch', send_wait_list, none)

/-- What one parking callback of SyncReceiver::recv observes. -/
structure SyncRecvObs (α : Type) where
  chan : SyncChan α
  send_wait_list : List Handle
  recv_wait_list : List Handle
  runq : List Handle

/-- The callback SyncReceiver::recv passes to take_current_coroutine
(mpsc.rs lines 232-245): with the recv wait list locked, re-run
SyncReceiver::try_recv (which on success also pops a send waiter); if
still Empty push the handle onto the back of the recv wait list,
otherwise ready it on the current processor. Returns the re-check result,
the new recv wait list, the new local deque, the woken send waiter and
the recorded event. -/
def sync_recv_park_cb {α : Type} (o : SyncRecvObs α) (coro : Handle) :
    Except TryRecvError α × List Handle × List Handle × Option Handle × ParkEvent :=
  let step := SyncReceiver_try_recv o.chan o.send_wait_list
  match step.1 with
  | .error .Empty => (step.1, o.recv_wait_list ++ [coro], o.runq, step.2.2.2, .pushedBack)
  | _ => (step.1, o.recv_wait_list, coro :: o.runq, step.2.2.2, .readied)

/-- The loop body of SyncReceiver::recv (mpsc.rs lines 225-246),
structured exactly like `recv_loop`. -/
def sync_recv_loop {α : Type} (coro : Handle) :
    Nat → Except TryRecvError α → List (SyncRecvObs α) →
    Option (Except Unit α) × List (ParkEvent × List Handle × List Handle)
  | 0, _, _ => (none, [])
  | _ + 1, .ok v, _ => (some (.ok v), [])
  | _ + 1, .error .Disconnected, _ => (some (.error ()), [])
  | _ + 1, .error .Empty, [] => (none, [])
  | fuel + 1, .error .Empty, o :: rest =>
    let step := sync_recv_park_cb o coro
    let cont := sync_recv_loop coro fuel step.1 rest
    (cont.1, (step.2.2.2.2, step.2.1, step.2.2.1) :: cont.2)

/-! ## Processor (src/runtime/processor.rs) -/

/-- The inbox messages (processor.rs lines 412-416). A stealer is modeled
by the neighbor deque contents visible from its steal end. -/
inductive ProcMessage
  | NewNeighbor (stealer : List Handle)
  | Ready (coro : Handle)
  | Shutdown

/-- Value raised by yield_with during shutdown (processor.rs line 44). -/
inductive ForceUnwind
  | mk
deriving DecidableEq, Repr

/-- The processor state (struct ProcessorInner, processor.rs lines 55-78).
`pid` stands for the weak_self identity coroutines record as their
preferred processor. `runq` is the local work-stealing deque seen from
the worker end: push and pop both act on the head (queue_worker.push
inserts at the front, per the comment on spawn_opts and on ready).
`take_coro_cb` records whether the one-shot callback slot is occupied;
`cb_calls` logs each invocation of that callback and `finished` logs the
handles handed to the scheduler finisher, so that dispatch decisions are
observable. -/
structure ProcState where
  pid : Nat
  current_coro : Option Handle
  last_state : State
  take_coro_cb : Bool
  runq : List Handle
  inbox : List ProcMessage
  neighbor_stealers : List (List Handle)
  is_exiting : Bool
  cb_calls : List Handle
  finished : List Handle

/-- Processor::ready (processor.rs lines 348-350): push the handle onto
the worker end of the local deque, making it the head of the queue. -/
def ProcState.ready (p : ProcState) (coro : Handle) : ProcState :=
  { p with runq := coro :: p.runq }

/-- First half of Processor::yield_with (processor.rs lines 358-364): the
task records its yield reason into last_state and context-switches to the
main coroutine. -/
def yield_with (p : ProcState) (r : State) : ProcState :=
  { p with last_state := r }

/-- Second half of Processor::yield_with (processor.rs lines 366-369),
executed when control later comes back to the yielding task: consult the
is_exiting flag of the processor state at that moment; if it is set the
call fails with ForceUnwind (the panic that force-unwinds the task
stack), otherwise it returns normally. -/
def yield_with_return (p_at_return : ProcState) : Except ForceUnwind Unit :=
  if p_at_return.is_exiting then .error .mk else .ok ()

/-- How a resumed task gives control back to the processor: by yielding
Suspended (sched), by parking (take_current_coroutine stores the
callback and yields Blocked), or by finishing. -/
inductive TaskYield
  | suspend
  | block
  | finish
deriving DecidableEq, Repr

/-- Effect on the processor of main_coro.yield_to(coro) inside resume:
the task runs until it yields. A Blocked yield comes from
take_current_coroutine (processor.rs lines 193-214), which fills the
one-shot callback slot before calling yield_with. -/
def run_task (p : ProcState) (ty : TaskYield) : ProcState :=
  match ty with
  | .suspend => yield_with p .Suspended
  | .block => yield_with { p with take_coro_cb := true } .Blocked
  | .finish => yield_with p .Finished

/-- Processor::resume (processor.rs lines 324-345): move the handle into
current_coro, switch into the task, and on return take the handle back
out and dispatch on last_state: Suspended re-enqueues it via ready;
Blocked takes the one-shot callback out of the slot and invokes it once
with the handle; Finished hands the handle to Scheduler::finished. -/
def resume (p : ProcState) (coro : Handle) (ty : TaskYield) : ProcState :=
  let p1 := run_task { p with current_coro := some coro } ty
  match p1.current_coro with
  | none => p1
  | some c =>
    let p2 := { p1 with current_coro := none }
    match p2.last_state with
    | .Suspended => p2.ready c
    | .Blocked => { p2 with take_coro_cb := false, cb_calls := p2.cb_calls ++ [c] }
    | .Finished => { p2 with finished := p2.finished ++ [c] }

/-- The two pushes performed by the callback spawn_opts passes to
take_current_coroutine (processor.rs lines 235-240): push the just-
yielded current handle, then push the new coroutine, so that the new
coroutine ends up at the pop end of the deque. -/
def spawn_pushes (runq : List Handle) (coro new_coro : Handle) : List Handle :=
  new_coro :: coro :: runq

/-- Processor::spawn_opts (processor.rs lines 224-244), composed with the
Blocked dispatch of resume that runs the stored callback: the new
coroutine records this processor as its preferred processor; if a task is
currently running, that task parks (take_current_coroutine: callback slot
filled, yield_with Blocked, resume invokes the callback with the yielded
handle) and the callback performs the two pushes; otherwise the new
coroutine is simply enqueued via ready. The composite leaves the callback
slot as it was (filled, then taken). -/
def spawn_opts (p : ProcState) (new_coro : Handle) : ProcState :=
  let nc := new_coro.set_preferred_processor (some p.pid)
  match p.current_coro with
  | some cur =>
    { p with current_coro := none, last_state := .Blocked,
             runq := spawn_pushes p.runq cur nc,
             cb_calls := p.cb_calls ++ [cur] }
  | none => p.ready nc

/-! ### The scheduling loop (Processor::schedule, processor.rs 247-322) -/

/-- Events observable from one iteration of the outer scheduling loop. -/
inductive SchedEvent
  | resumed (h : Handle)
  | stole (idx : Nat) (h : Handle)
  | blockedOnInbox
deriving DecidableEq, Repr

/-- Step 1 of the loop: while the local deque pops a handle, resume it.
The behavior of each resumed task is supplied by `beh` (keyed by handle
id); the fuel bounds the number of pops, since a task that keeps yielding
Suspended is re-pushed and popped again forever. Returns the state after
the drain and the popped handles in pop order. -/
def drain_runq (beh : Nat → TaskYield) : Nat → ProcState → ProcState × List Handle
  | 0, p => (p, [])
  | fuel + 1, p =>
    match p.runq with
    | [] => (p, [])
    | h :: rest =>
      let p1 := resume { p with runq := rest } h (beh h.id)
      let step := drain_runq beh fuel p1
      (step.1, h :: step.2)

/-- Dispatch of one inbox message in step 2 of the loop (processor.rs
lines 267-280): NewNeighbor appends the stealer; Shutdown latches
is_exiting and sets the resume-all flag; Ready records this processor as
the preferred processor of the handle, enqueues it locally and sets the
resume-all flag. The Bool is the resume_all_tasks flag. -/
def handle_msg (pf : ProcState × Bool) (m : ProcMessage) : ProcState × Bool :=
  match m with
  | .NewNeighbor st =>
    ({ pf.1 with neighbor_stealers := pf.1.neighbor_stealers ++ [st] }, pf.2)
  | .Shutdown => ({ pf.1 with is_exiting := true }, true)
  | .Ready coro =>
    (pf.1.ready (coro.set_preferred_processor (some pf.1.pid)), true)

/-- Step 2: non-blockingly drain the inbox (try_recv until it fails),
dispatching each message in arrival order. -/
def drain_inbox (p : ProcState) : ProcState × Bool :=
  p.inbox.foldl handle_msg ({ p with inbox := [] }, false)

/-- Step 3: scan the neighbors once, starting at the random offset;
`cnt` counts the neighbors still to try and `k` is the current offset
from `rand_idx`. A steal on a neighbor succeeds exactly when its deque is
nonempty, yielding the element at its steal end. -/
def steal_scan (neighbors : List (List Handle)) (rand_idx : Nat) :
    Nat → Nat → Option (Nat × Handle)
  | _, 0 => none
  | k, cnt + 1 =>
    let i := (rand_idx + k) % neighbors.length
    match (neighbors.getD i []).head? with
    | some h => some (i, h)
    | none => steal_scan neighbors rand_idx (k + 1) cnt

/-- How one iteration of the outer loop ends. -/
inductive IterOutcome
  | exited
  | looped
  | blockedOnInbox
deriving DecidableEq, Repr

/-- One iteration of the outer scheduling loop (processor.rs 248-321):
drain the local deque; break if is_exiting; drain the inbox and restart
if anything was enqueued or exit was latched; otherwise scan every
neighbor once from the random offset, resume the first successful steal
and restart; only if all of that yields nothing, block on the inbox. -/
def schedule_iter (beh : Nat → TaskYield) (fuel rand_idx : Nat) (p : ProcState) :
    ProcState × List SchedEvent × IterOutcome :=
  let d := drain_runq beh fuel p
  let evs := d.2.map SchedEvent.resumed
  if d.1.is_exiting then (d.1, evs, .exited)
  else
    let m := drain_inbox d.1
    if m.2 then (m.1, evs, .looped)
    else
      match steal_scan m.1.neighbor_stealers rand_idx 0 m.1.neighbor_stealers.length with
      | some ih =>
        let p3 := { m.1 with
          neighbor_stealers :=
            m.1.neighbor_stealers.set ih.1 (m.1.neighbor_stealers.getD ih.1 []).tail }
        (resume p3 ih.2 (beh ih.2.id), evs ++ [.stole ih.1 ih.2], .looped)
      | none => (m.1, evs ++ [.blockedOnInbox], .blockedOnInbox)

/-! ## I/O adapters (src/io.rs, src/net/tcp.rs, src/net/udp.rs, src/net/unix.rs) -/

/-- The descriptor-bearing adapter types of the net modules. -/
inductive Adapter
  | tcpListener
  | tcpStream
  | udpSocket
  | unixSocket
  | unixStream
  | unixListener
  | pipeReader
  | pipeWriter
deriving DecidableEq, Repr

/-- Which adapter types have an impl of the Io trait (src/io.rs lines
3-11) in the source: udp.rs line 167 for UdpSocket; unix.rs lines 117,
306, 414, 543 and 687 for UnixSocket, UnixStream, UnixListener,
PipeReader and PipeWriter. tcp.rs contains no Io impl, and its
TcpListener and TcpStream are plain newtypes over the mio types with no
timeout slot. -/
def Io_impl : Adapter → Bool
  | .udpSocket => true
  | .unixSocket => true
  | .unixStream => true
  | .unixListener => true
  | .pipeReader => true
  | .pipeWriter => true
  | .tcpListener => false
  | .tcpStream => false

/-- The per-adapter timeout slot (struct IoTimeout of the net module,
reconstructed from its uses in udp.rs and unix.rs: a `delay` field
holding the configured per-operation timeout in milliseconds and a
`timeout` field holding the armed mio timer handle, modeled by a token
id). -/
structure IoTimeout where
  delay : Option Nat
  timeout : Option Nat
deriving DecidableEq, Repr

/-- IoTimeout::new. -/
def IoTimeout.new : IoTimeout := { delay := none, timeout := none }

/-- Io::set_timeout as implemented by every Io impl (for example udp.rs
lines 172-177): store the optional millisecond delay. -/
def Io_set_timeout (s : IoTimeout) (t : Option Nat) : IoTimeout :=
  { s with delay := t }

/-- Io::timeout (for example udp.rs lines 179-184): read the delay. -/
def Io_timeout (s : IoTimeout) : Option Nat :=
  s.delay

/-- Io::save_timeout (for example udp.rs lines 186-191): remember the
armed timer token. -/
def Io_save_timeout (s : IoTimeout) (tok : Nat) : IoTimeout :=
  { s with timeout := some tok }

/-- Io::take_timeout (for example udp.rs lines 193-198): take the armed
timer token out of the slot. -/
def Io_take_timeout (s : IoTimeout) : Option Nat × IoTimeout :=
  (s.timeout, { s with timeout := none })

/-! ### The nonblocking-retry template -/

/-- Error kinds distinguished by the adapters. -/
inductive ErrKind
  | NotConnected
  | Other (code : Nat)
deriving DecidableEq, Repr

/-- Outcome of one nonblocking syscall attempt, as surfaced by the mio
wrappers: Ok(Some v) is success, Ok(None) is would-block, Err carries any
other error. -/
inductive NbResult (α : Type)
  | ok (v : α)
  | wouldBlock
  | err (e : ErrKind)
deriving DecidableEq, Repr

/-- Calls the adapters make into the scheduler while retrying. -/
inductive IoEvent
  | waitReadable
  | waitWritable
deriving DecidableEq, Repr

/-- The retry loop of UdpSocket::recv_from (udp.rs lines 124-135): wait
for readability, re-attempt; would-block waits again; success and errors
return. Consumes one environment-supplied attempt outcome per syscall;
none means the trace ran out while still waiting. -/
def udp_recv_from_loop {α : Type} :
    List (NbResult α) → Option (Except ErrKind α) × List IoEvent
  | [] => (none, [])
  | .ok v :: _ => (some (.ok v), [.waitReadable])
  | .err e :: _ => (some (.error e), [.waitReadable])
  | .wouldBlock :: rest =>
    let cont := udp_recv_from_loop rest
    (cont.1, .waitReadable :: cont.2)

/-- UdpSocket::recv_from (udp.rs lines 114-136): one initial nonblocking
attempt whose error propagates directly (the try! around inner.recv_from)
and whose success returns; on would-block enter the wait-retry loop. -/
def udp_recv_from {α : Type} :
    List (NbResult α) → Option (Except ErrKind α) × List IoEvent
  | [] => (none, [])
  | .ok v :: _ => (some (.ok v), [])
  | .err e :: _ => (some (.error e), [])
  | .wouldBlock :: rest => udp_recv_from_loop rest

/-- The second loop of the TcpStream Read impl (tcp.rs lines 202-219),
entered after the first would-block: wait for readability, re-attempt;
would-block waits again; success and any error (including NotConnected)
return. -/
def tcp_read_loop {α : Type} :
    List (NbResult α) → Option (Except ErrKind α) × List IoEvent
  | [] => (none, [])
  | .ok v :: _ => (some (.ok v), [.waitReadable])
  | .err e :: _ => (some (.error e), [.waitReadable])
  | .wouldBlock :: rest =>
    let cont := tcp_read_loop rest
    (cont.1, .waitReadable :: cont.2)

/-- The first loop of the TcpStream Read impl (tcp.rs lines 179-200):
attempt; success returns; would-block breaks into the wait-retry loop; a
NotConnected error waits for readability, consults take_socket_error
(one environment-supplied outcome per consultation) and on no pending
socket error re-attempts; any other error returns. -/
def tcp_read {α : Type} :
    List (NbResult α) → List (Option ErrKind) → Option (Except ErrKind α) × List IoEvent
  | [], _ => (none, [])
  | .ok v :: _, _ => (some (.ok v), [])
  | .wouldBlock :: rest, _ => tcp_read_loop rest
  | .err .NotConnected :: rest, sock_errs =>
    match sock_errs.head? with
    | some (some e) => (some (.error e), [.waitReadable])
    | _ =>
      let cont := tcp_read rest sock_errs.tail
      (cont.1, .waitReadable :: cont.2)
  | .err (.Other c) :: _, _ => (some (.error (.Other c)), [])

/-- The retry loop inside UdpSocket::send_to for one address (udp.rs
lines 86-102): wait for writability, re-attempt; would-block waits
again; success and errors return out of send_to. -/
def udp_send_to_retry :
    List (NbResult Nat) → Option (Except ErrKind Nat) × List IoEvent
  | [] => (none, [])
  | .ok len :: _ => (some (.ok len), [.waitWritable])
  | .err e :: _ => (some (.error e), [.waitWritable])
  | .wouldBlock :: rest =>
    let cont := udp_send_to_retry rest
    (cont.1, .waitWritable :: cont.2)

/-- The body of UdpSocket::send_to (udp.rs lines 79-112). Each resolved
address contributes the outcome of its first nonblocking attempt plus the
attempt trace of its retry loop (used only when the first attempt
would-blocks). `last_err` starts as Ok(0); a direct error on an address
replaces last_err and moves on to the next address; a success returns its
length; a would-block enters the retry loop for that address and returns
whatever it produces; when the addresses run out, last_err is returned.
The third component counts the inner send_to syscall attempts. -/
def udp_send_to_go :
    List (NbResult Nat × List (NbResult Nat)) → Except ErrKind Nat →
    Option (Except ErrKind Nat) × List IoEvent × Nat
  | [], last_err => (some last_err, [], 0)
  | (.ok len, _) :: _, _ => (some (.ok len), [], 1)
  | (.err e, _) :: rest, _ =>
    let cont := udp_send_to_go rest (.error e)
    (cont.1, cont.2.1, cont.2.2 + 1)
  | (.wouldBlock, retry_trace) :: _, _ =>
    let r := udp_send_to_retry retry_trace
    (r.1, r.2, 1 + r.2.length)

/-- UdpSocket::send_to over the resolved address list, starting from
last_err = Ok(0). An empty address list performs no attempt. -/
def udp_send_to (addrs : List (NbResult Nat × List (NbResult Nat))) :
    Option (Except ErrKind Nat) × List IoEvent × Nat :=
  udp_send_to_go addrs (.ok 0)

/-! ## Theorems settling the claims -/

/-- C2: for every coroutine handle resumed by Processor::resume, after
control returns to the main coroutine the processor dispatches on
last_state: if Suspended, the handle is re-enqueued on the local run
deque via ready; if Blocked, the one-shot callback stored in the
take-coroutine slot is invoked exactly once with the handle and the slot
is emptied; if Finished, the handle is passed to the scheduler finisher. -/
theorem claim2_resume_dispatch (p : ProcState) (coro : Handle) :
    resume p coro .suspend =
      { p with current_coro := none, last_state := .Suspended,
               runq := coro :: p.runq } ∧
    resume p coro .block =
      { p with current_coro := none, last_state := .Blocked,
               take_coro_cb := false, cb_calls := p.cb_calls ++ [coro] } ∧
    resume p coro .finish =
      { p with current_coro := none, last_state := .Finished,
               finished := p.finished ++ [coro] } :=
  ⟨rfl, rfl, rfl⟩

/-- C4: spawn_opts called with a running task parks the current task with
state Blocked and pushes both its handle and the new coroutine onto the
local run deque so that the new coroutine is popped and run next; with
no running task it simply enqueues the new coroutine at the worker end.
In both cases the new coroutine records this processor as its preferred
processor. -/
theorem claim4_spawn_opts (p : ProcState) (nc : Handle) :
    (∀ cur, p.current_coro = some cur →
      spawn_opts p nc =
        { p with current_coro := none, last_state := .Blocked,
                 runq := spawn_pushes p.runq cur
                   (nc.set_preferred_processor (some p.pid)),
                 cb_calls := p.cb_calls ++ [cur] } ∧
      (spawn_opts p nc).runq.head? =
        some (nc.set_preferred_processor (some p.pid))) ∧
    (p.current_coro = none →
      spawn_opts p nc = p.ready (nc.set_preferred_processor (some p.pid))) ∧
    (nc.set_preferred_processor (some p.pid)).preferred = some p.pid := by
  refine ⟨?_, ?_, rfl⟩
  · intro cur hcur
    constructor
    · simp [spawn_opts, hcur]
    · simp [spawn_opts, hcur, spawn_pushes]
  · intro hnone
    simp [spawn_opts, hnone]

/-- C4 witness: the theorem applied at a concrete processor state with a
running task. -/
theorem claim4_spawn_opts_witness :
    spawn_opts
        { pid := 7, current_coro := some ⟨1, none⟩, last_state := .Suspended,
          take_coro_cb := false, runq := [⟨2, none⟩], inbox := [],
          neighbor_stealers := [], is_exiting := false, cb_calls := [],
          finished := [] } ⟨3, none⟩ =
      { pid := 7, current_coro := none, last_state := .Blocked,
        take_coro_cb := false,
        runq := [⟨3, some 7⟩, ⟨1, none⟩, ⟨2, none⟩], inbox := [],
        neighbor_stealers := [], is_exiting := false, cb_calls := [⟨1, none⟩],
        finished := [] } :=
  ((claim4_spawn_opts _ ⟨3, none⟩).1 ⟨1, none⟩ rfl).1

/-- C5: yield_with records the given state into last_state and switches
to the main coroutine; when control returns to the yielding task, it
raises ForceUnwind if the processor is_exiting flag is set at that
moment and returns normally otherwise. -/
theorem claim5_yield_with (p : ProcState) (r : State) (q : ProcState) :
    yield_with p r = { p with last_state := r } ∧
    (yield_with p r).last_state = r ∧
    (q.is_exiting = true → yield_with_return q = .error .mk) ∧
    (q.is_exiting = false → yield_with_return q = .ok ()) := by
  refine ⟨rfl, rfl, ?_, ?_⟩ <;> intro h <;> simp [yield_with_return, h]

/-- C5 witness: the theorem applied at a concrete state in both
is_exiting polarities. -/
theorem claim5_yield_with_witness :
    yield_with_return
        { pid := 0, current_coro := none, last_state := .Suspended,
          take_coro_cb := false, runq := [], inbox := [],
          neighbor_stealers := [], is_exiting := true, cb_calls := [],
          finished := [] } = .error .mk :=
  (claim5_yield_with
      { pid := 0, current_coro := none, last_state := .Suspended,
        take_coro_cb := false, runq := [], inbox := [],
        neighbor_stealers := [], is_exiting := true, cb_calls := [],
        finished := [] } .Blocked _).2.2.1 rfl

/-- C6: for every successful channel operation (unbounded Sender::send,
bounded SyncSender::try_send, bounded SyncReceiver::try_recv) at most one
parked waiter is woken and it is taken from the front of the
corresponding wait list; an empty wait list gives no wakeup; a failed
operation wakes nobody. -/
theorem claim6_wakeup_fifo {α : Type} (ch : MpscChan α) (wl : List Handle) (v : α)
    (sch : SyncChan α) (rwl swl : List Handle) (w : α) :
    (Sender_send ch wl v).2.2.2 =
      (if ch.receiver_dropped then none else wl.head?) ∧
    (Sender_send ch wl v).2.2.1 =
      (if ch.receiver_dropped then wl else wl.tail) ∧
    (Sender_send ch [] v).2.2.2 = none ∧
    (SyncSender_try_send sch rwl w).2.2.2 =
      (if sch.receiver_dropped then none
       else if sch.queue.length < sch.bound then rwl.head? else none) ∧
    (SyncSender_try_send sch rwl w).2.2.1 =
      (if sch.receiver_dropped then rwl
       else if sch.queue.length < sch.bound then rwl.tail else rwl) ∧
    (SyncSender_try_send sch [] w).2.2.2 = none ∧
    (SyncReceiver_try_recv sch swl).2.2.2 =
      (if sch.queue.isEmpty then none else swl.head?) ∧
    (SyncReceiver_try_recv sch swl).2.2.1 =
      (if sch.queue.isEmpty then swl else swl.tail) ∧
    (SyncReceiver_try_recv sch []).2.2.2 = none := by
  refine ⟨?_, ?_, ?_, ?_, ?_, ?_, ?_, ?_, ?_⟩
  · simp only [Sender_send]
    split <;> rfl
  · simp only [Sender_send]
    split <;> rfl
  · simp only [Sender_send]
    split <;> rfl
  · by_cases hd : sch.receiver_dropped <;> by_cases hl : sch.queue.length < sch.bound <;>
      simp [SyncSender_try_send, sync_inner_try_send, hd, hl]
  · by_cases hd : sch.receiver_dropped <;> by_cases hl : sch.queue.length < sch.bound <;>
      simp [SyncSender_try_send, sync_inner_try_send, hd, hl]
  · by_cases hd : sch.receiver_dropped <;> by_cases hl : sch.queue.length < sch.bound <;>
      simp [SyncSender_try_send, sync_inner_try_send, hd, hl]
  · cases hq : sch.queue <;> simp [SyncReceiver_try_recv, sync_inner_try_recv, hq]
  · cases hq : sch.queue <;> simp [SyncReceiver_try_recv, sync_inner_try_recv, hq]
  · cases hq : sch.queue <;> simp [SyncReceiver_try_recv, sync_inner_try_recv, hq]

/-- C8 counterexample: the TCP stream and listener of this source do not
implement the Io trait (tcp.rs contains no Io impl and the TCP types
carry no timeout slot), refuting the claim that every descriptor-bearing
adapter type exposes the Io contract. -/
theorem claim8_counterexample :
    Io_impl Adapter.tcpStream = false ∧ Io_impl Adapter.tcpListener = false ∧
    ¬ (∀ a : Adapter, Io_impl a = true) := by
  refine ⟨rfl, rfl, fun h => ?_⟩
  exact absurd (h Adapter.tcpStream) (by decide)

/-- C8 (amended): every descriptor-bearing adapter type other than the
TCP stream and listener (UDP socket, UNIX stream/listener/socket, pipe
reader and writer) exposes the Io contract, whose timeout operations
behave as follows: set_timeout stores the optional per-operation delay
read back by timeout, and save_timeout stores an armed timer token that
take_timeout removes and returns. -/
theorem claim8_amended (a : Adapter) (s : IoTimeout) (t : Option Nat) (tok : Nat) :
    (a ≠ .tcpStream → a ≠ .tcpListener → Io_impl a = true) ∧
    Io_timeout (Io_set_timeout s t) = t ∧
    (Io_set_timeout s t).timeout = s.timeout ∧
    (Io_take_timeout (Io_save_timeout s tok)).1 = some tok ∧
    (Io_take_timeout (Io_save_timeout s tok)).2.timeout = none ∧
    (Io_take_timeout s).2.timeout = none ∧
    Io_timeout (Io_save_timeout s tok) = Io_timeout s := by
  refine ⟨?_, rfl, rfl, rfl, rfl, rfl, rfl⟩
  intro h1 h2
  cases a <;> first | rfl | exact absurd rfl h1 | exact absurd rfl h2

/-- C8 witness: the amended theorem applied to the UDP socket and a
concrete timeout slot. -/
theorem claim8_amended_witness :
    Io_impl Adapter.udpSocket = true ∧
    Io_timeout (Io_set_timeout IoTimeout.new (some 50)) = some 50 :=
  ⟨(claim8_amended Adapter.udpSocket IoTimeout.new (some 50) 3).1
      (by decide) (by decide),
   (claim8_amended Adapter.udpSocket IoTimeout.new (some 50) 3).2.1⟩

/-! ### Helper lemmas for the recv loops -/

lemma recv_park_cb_of_empty {α : Type} (ch : MpscChan α) (wl rq : List Handle)
    (coro : Handle) (h : (mpsc_try_recv ch).1 = .error .Empty) :
    recv_park_cb ch wl rq coro = (.error .Empty, wl ++ [coro], rq, .pushedBack) := by
  simp [recv_park_cb, h]

lemma recv_park_cb_of_ne_empty {α : Type} (ch : MpscChan α) (wl rq : List Handle)
    (coro : Handle) (h : (mpsc_try_recv ch).1 ≠ .error .Empty) :
    recv_park_cb ch wl rq coro = ((mpsc_try_recv ch).1, wl, coro :: rq, .readied) := by
  rcases hr : (mpsc_try_recv ch).1 with e | v
  · cases e
    · exact absurd hr h
    · simp [recv_park_cb, hr]
  · simp [recv_park_cb, hr]

lemma recv_loop_succ_empty {α : Type} (coro : Handle) (n : Nat) (o : RecvObs α)
    (rest : List (RecvObs α)) :
    recv_loop coro (n + 1) (.error .Empty) (o :: rest) =
      ((recv_loop coro n (recv_park_cb o.chan o.wait_list o.runq coro).1 rest).1,
       ((recv_park_cb o.chan o.wait_list o.runq coro).2.2.2,
        (recv_park_cb o.chan o.wait_list o.runq coro).2.1,
        (recv_park_cb o.chan o.wait_list o.runq coro).2.2.1) ::
         (recv_loop coro n (recv_park_cb o.chan o.wait_list o.runq coro).1 rest).2) :=
  rfl

lemma mpsc_try_recv_ne_empty_of_senders_dropped {α : Type} (s : MpscChan α)
    (h : s.senders_dropped = true) : (mpsc_try_recv s).1 ≠ .error .Empty := by
  cases hq : s.queue <;> simp [mpsc_try_recv, hq, h]

lemma recv_loop_no_park_of_disconnected {α : Type} (coro : Handle) :
    ∀ (fuel : Nat) (r : Except TryRecvError α) (obs : List (RecvObs α)),
      (∀ x ∈ obs, x.chan.senders_dropped = true) →
      ∀ y ∈ (recv_loop coro fuel r obs).2, y.1 = .readied := by
  intro fuel
  induction fuel with
  | zero => intro r obs _ y hy; simp [recv_loop] at hy
  | succ n ih =>
    intro r obs hall y hy
    match r, obs with
    | .ok v, _ => simp [recv_loop] at hy
    | .error .Disconnected, _ => simp [recv_loop] at hy
    | .error .Empty, [] => simp [recv_loop] at hy
    | .error .Empty, o :: rest =>
      rw [recv_loop_succ_empty] at hy
      have hne := mpsc_try_recv_ne_empty_of_senders_dropped o.chan (hall o (by simp))
      rw [recv_park_cb_of_ne_empty o.chan o.wait_list o.runq coro hne] at hy
      rcases List.mem_cons.1 hy with hy | hy
      · rw [hy]
      · exact ih _ rest (fun x hx => hall x (by simp [hx])) y hy

lemma sync_try_recv_fst {α : Type} (ch : SyncChan α) (swl : List Handle) :
    (SyncReceiver_try_recv ch swl).1 = (sync_inner_try_recv ch).1 := by
  rcases hr : sync_inner_try_recv ch with ⟨r, ch'⟩
  cases r <;> simp [SyncReceiver_try_recv, hr]

lemma sync_recv_park_cb_of_empty {α : Type} (o : SyncRecvObs α) (coro : Handle)
    (h : (SyncReceiver_try_recv o.chan o.send_wait_list).1 = .error .Empty) :
    sync_recv_park_cb o coro =
      (.error .Empty, o.recv_wait_list ++ [coro], o.runq,
       (SyncReceiver_try_recv o.chan o.send_wait_list).2.2.2, .pushedBack) := by
  simp [sync_recv_park_cb, h]

lemma sync_recv_park_cb_of_ne_empty {α : Type} (o : SyncRecvObs α) (coro : Handle)
    (h : (SyncReceiver_try_recv o.chan o.send_wait_list).1 ≠ .error .Empty) :
    sync_recv_park_cb o coro =
      ((SyncReceiver_try_recv o.chan o.send_wait_list).1, o.recv_wait_list,
       coro :: o.runq, (SyncReceiver_try_recv o.chan o.send_wait_list).2.2.2,
       .readied) := by
  rcases hr : (SyncReceiver_try_recv o.chan o.send_wait_list).1 with e | v
  · cases e
    · exact absurd hr h
    · simp [sync_recv_park_cb, hr]
  · simp [sync_recv_park_cb, hr]

lemma sync_recv_loop_succ_empty {α : Type} (coro : Handle) (n : Nat)
    (o : SyncRecvObs α) (rest : List (SyncRecvObs α)) :
    sync_recv_loop coro (n + 1) (.error .Empty) (o :: rest) =
      ((sync_recv_loop coro n (sync_recv_park_cb o coro).1 rest).1,
       ((sync_recv_park_cb o coro).2.2.2.2,
        (sync_recv_park_cb o coro).2.1,
        (sync_recv_park_cb o coro).2.2.1) ::
         (sync_recv_loop coro n (sync_recv_park_cb o coro).1 rest).2) :=
  rfl

lemma sync_try_recv_ne_empty_of_senders_dropped {α : Type} (s : SyncChan α)
    (swl : List Handle) (h : s.senders_dropped = true) :
    (SyncReceiver_try_recv s swl).1 ≠ .error .Empty := by
  rw [sync_try_recv_fst]
  cases hq : s.queue <;> simp [sync_inner_try_recv, hq, h]

lemma sync_recv_loop_no_park_of_disconnected {α : Type} (coro : Handle) :
    ∀ (fuel : Nat) (r : Except TryRecvError α) (obs : List (SyncRecvObs α)),
      (∀ x ∈ obs, x.chan.senders_dropped = true) →
      ∀ y ∈ (sync_recv_loop coro fuel r obs).2, y.1 = .readied := by
  intro fuel
  induction fuel with
  | zero => intro r obs _ y hy; simp [sync_recv_loop] at hy
  | succ n ih =>
    intro r obs hall y hy
    match r, obs with
    | .ok v, _ => simp [sync_recv_loop] at hy
    | .error .Disconnected, _ => simp [sync_recv_loop] at hy
    | .error .Empty, [] => simp [sync_recv_loop] at hy
    | .error .Empty, o :: rest =>
      rw [sync_recv_loop_succ_empty] at hy
      have hne :=
        sync_try_recv_ne_empty_of_senders_dropped o.chan o.send_wait_list
          (hall o (by simp))
      rw [sync_recv_park_cb_of_ne_empty o coro hne] at hy
      rcases List.mem_cons.1 hy with hy | hy
      · rw [hy]
      · exact ih _ rest (fun x hx => hall x (by simp [hx])) y hy

/-- C1: Receiver::recv on a thread with a current processor loops on
try_recv: an Ok result is returned and Disconnected yields an error; on
Empty the task parks via take_current_coroutine with a callback that, with
the wait list locked, re-runs try_recv and either pushes the just-yielded
handle onto the back of the wait list (re-check still Empty) or re-readies
the handle on the current processor (re-check Ok or Disconnected), after
which the loop examines the re-check result in the next iteration; the
initial try_recv before the loop is dispatched the same way. -/
theorem claim1_recv_algorithm {α : Type} (coro : Handle) (fuel : Nat) (v : α)
    (obs : List (RecvObs α)) (o : RecvObs α) (rest : List (RecvObs α))
    (ch0 : MpscChan α) :
    recv_loop coro (fuel + 1) (.ok v) obs = (some (.ok v), []) ∧
    recv_loop coro (fuel + 1) (.error .Disconnected) obs = (some (.error ()), []) ∧
    ((mpsc_try_recv o.chan).1 = .error .Empty →
      recv_loop coro (fuel + 1) (.error .Empty) (o :: rest) =
        ((recv_loop coro fuel (.error .Empty) rest).1,
         (.pushedBack, o.wait_list ++ [coro], o.runq) ::
           (recv_loop coro fuel (.error .Empty) rest).2)) ∧
    ((mpsc_try_recv o.chan).1 ≠ .error .Empty →
      recv_loop coro (fuel + 1) (.error .Empty) (o :: rest) =
        ((recv_loop coro fuel (mpsc_try_recv o.chan).1 rest).1,
         (.readied, o.wait_list, coro :: o.runq) ::
           (recv_loop coro fuel (mpsc_try_recv o.chan).1 rest).2)) ∧
    Receiver_recv coro fuel ch0 obs = recv_loop coro fuel (mpsc_try_recv ch0).1 obs := by
  refine ⟨rfl, rfl, ?_, ?_, rfl⟩
  · intro h
    rw [recv_loop_succ_empty, recv_park_cb_of_empty o.chan o.wait_list o.runq coro h]
  · intro h
    rw [recv_loop_succ_empty, recv_park_cb_of_ne_empty o.chan o.wait_list o.runq coro h]

/-- C1 witness: the theorem applied at an empty, connected channel
snapshot (the double check stays Empty, so the handle is pushed onto the
back of the wait list) with one unit of fuel left. -/
theorem claim1_recv_algorithm_witness :
    recv_loop (α := Nat) ⟨5, none⟩ 1 (.error .Empty)
        [⟨⟨[], false, false⟩, [⟨9, none⟩], []⟩] =
      (none, [(.pushedBack, [⟨9, none⟩, ⟨5, none⟩], [])]) :=
  (claim1_recv_algorithm (α := Nat) ⟨5, none⟩ 0 0 []
      ⟨⟨[], false, false⟩, [⟨9, none⟩], []⟩ [] ⟨[], false, false⟩).2.2.1 rfl

/-- C7: recv on a channel whose senders have all been dropped returns an
error right after the double check: a Disconnected re-check re-readies
the just-yielded handle instead of leaving it on the wait list and the
next loop iteration returns the RecvError; moreover, while every observed
snapshot is disconnected, no iteration of either recv loop (unbounded
Receiver::recv or bounded SyncReceiver::recv) ever pushes the handle onto
a wait list. -/
theorem claim7_recv_on_disconnected {α : Type} (coro : Handle) (fuel : Nat)
    (o : RecvObs α) (rest : List (RecvObs α)) (r : Except TryRecvError α)
    (obs : List (RecvObs α)) (so : SyncRecvObs α) (srest : List (SyncRecvObs α))
    (sobs : List (SyncRecvObs α)) :
    ((mpsc_try_recv o.chan).1 = .error .Disconnected →
      recv_loop coro (fuel + 2) (.error .Empty) (o :: rest) =
        (some (.error ()), [(.readied, o.wait_list, coro :: o.runq)])) ∧
    ((∀ x ∈ obs, x.chan.senders_dropped = true) →
      ∀ y ∈ (recv_loop coro fuel r obs).2, y.1 = .readied) ∧
    ((SyncReceiver_try_recv so.chan so.send_wait_list).1 = .error .Disconnected →
      sync_recv_loop coro (fuel + 2) (.error .Empty) (so :: srest) =
        (some (.error ()),
         [(.readied, so.recv_wait_list, coro :: so.runq)])) ∧
    ((∀ x ∈ sobs, x.chan.senders_dropped = true) →
      ∀ y ∈ (sync_recv_loop coro fuel r sobs).2, y.1 = .readied) := by
  refine ⟨?_, recv_loop_no_park_of_disconnected coro fuel r obs, ?_,
    sync_recv_loop_no_park_of_disconnected coro fuel r sobs⟩
  · intro h
    rw [recv_loop_succ_empty,
      recv_park_cb_of_ne_empty o.chan o.wait_list o.runq coro (by simp [h]), h]
    rfl
  · intro h
    rw [sync_recv_loop_succ_empty,
      sync_recv_park_cb_of_ne_empty so coro (by simp [h]), h]
    rfl

/-- C7 witness: the theorem applied at a snapshot with every sender
dropped and an empty queue: the double check observes Disconnected, the
handle is re-readied on the processor, and the loop returns the error. -/
theorem claim7_recv_on_disconnected_witness :
    recv_loop (α := Nat) ⟨4, none⟩ 2 (.error .Empty)
        [⟨⟨[], true, false⟩, [], [⟨8, none⟩]⟩] =
      (some (.error ()), [(.readied, [], [⟨4, none⟩, ⟨8, none⟩])]) :=
  (claim7_recv_on_disconnected (α := Nat) ⟨4, none⟩ 0
      ⟨⟨[], true, false⟩, [], [⟨8, none⟩]⟩ [] (.error .Empty) []
      ⟨⟨[], 1, true, false⟩, [], [], []⟩ [] []).1 rfl

/-! ### Helper lemmas for the nonblocking-retry template -/

lemma udp_recv_from_loop_ok {α : Type} (v : α) (rest : List (NbResult α)) :
    ∀ k : Nat,
      udp_recv_from_loop (List.replicate k .wouldBlock ++ .ok v :: rest) =
        (some (.ok v), List.replicate (k + 1) .waitReadable) := by
  intro k
  induction k with
  | zero => rfl
  | succ n ih => simp [List.replicate_succ, udp_recv_from_loop, ih]

lemma udp_recv_from_loop_err {α : Type} (e : ErrKind) (rest : List (NbResult α)) :
    ∀ k : Nat,
      udp_recv_from_loop (List.replicate k .wouldBlock ++ .err e :: rest) =
        (some (.error e), List.replicate (k + 1) .waitReadable) := by
  intro k
  induction k with
  | zero => rfl
  | succ n ih => simp [List.replicate_succ, udp_recv_from_loop, ih]

lemma tcp_read_loop_ok {α : Type} (v : α) (rest : List (NbResult α)) :
    ∀ k : Nat,
      tcp_read_loop (List.replicate k .wouldBlock ++ .ok v :: rest) =
        (some (.ok v), List.replicate (k + 1) .waitReadable) := by
  intro k
  induction k with
  | zero => rfl
  | succ n ih => simp [List.replicate_succ, tcp_read_loop, ih]

lemma tcp_read_loop_err {α : Type} (e : ErrKind) (rest : List (NbResult α)) :
    ∀ k : Nat,
      tcp_read_loop (List.replicate k .wouldBlock ++ .err e :: rest) =
        (some (.error e), List.replicate (k + 1) .waitReadable) := by
  intro k
  induction k with
  | zero => rfl
  | succ n ih => simp [List.replicate_succ, tcp_read_loop, ih]

/-- C9 counterexample: UdpSocket::recv_from propagates a NotConnected
error from its first nonblocking attempt directly to the caller — no
Scheduler::wait_event call and no retry happen — contradicting the claim
that every adapter operation reacts to a not-connected report by waiting
on the event and retrying the syscall. -/
theorem claim9_counterexample :
    udp_recv_from ([NbResult.err .NotConnected] : List (NbResult Nat)) =
      (some (.error .NotConnected), []) :=
  rfl

/-- C9 (amended): every embedded adapter operation attempts the
nonblocking syscall, returns the result on success, and on would-block
calls Scheduler::wait_event with the matching interest and retries, one
wait per would-block, so a would-block outcome is never surfaced; any
error — a not-connected report included — propagates unchanged, except
that TCP stream read (and symmetrically write) treats a NotConnected
error arising before the first would-block by waiting on the event,
consulting take_socket_error and retrying. -/
theorem claim9_amended {α : Type} (k c : Nat) (v : α) (e : ErrKind)
    (rest t : List (NbResult α)) (es : List (Option ErrKind)) :
    udp_recv_from (List.replicate k .wouldBlock ++ .ok v :: rest) =
      (some (.ok v), List.replicate k .waitReadable) ∧
    udp_recv_from (List.replicate k .wouldBlock ++ .err e :: rest) =
      (some (.error e), List.replicate k .waitReadable) ∧
    tcp_read (List.replicate k .wouldBlock ++ .ok v :: rest) es =
      (some (.ok v), List.replicate k .waitReadable) ∧
    tcp_read (List.replicate k .wouldBlock ++ .err (.Other c) :: rest) es =
      (some (.error (.Other c)), List.replicate k .waitReadable) ∧
    tcp_read (List.replicate (k + 1) .wouldBlock ++ .err .NotConnected :: rest) es =
      (some (.error .NotConnected), List.replicate (k + 1) .waitReadable) ∧
    tcp_read (.err .NotConnected :: t) (some e :: es) =
      (some (.error e), [.waitReadable]) ∧
    (tcp_read (.err .NotConnected :: t) (none :: es)).1 = (tcp_read t es).1 ∧
    (tcp_read (.err .NotConnected :: t) (none :: es)).2 =
      .waitReadable :: (tcp_read t es).2 := by
  refine ⟨?_, ?_, ?_, ?_, ?_, rfl, rfl, rfl⟩
  · cases k with
    | zero => rfl
    | succ n =>
      simp only [List.replicate_succ, List.cons_append, udp_recv_from]
      exact udp_recv_from_loop_ok v rest n
  · cases k with
    | zero => rfl
    | succ n =>
      simp only [List.replicate_succ, List.cons_append, udp_recv_from]
      exact udp_recv_from_loop_err e rest n
  · cases k with
    | zero => rfl
    | succ n =>
      simp only [List.replicate_succ, List.cons_append, tcp_read]
      exact tcp_read_loop_ok v rest n
  · cases k with
    | zero => rfl
    | succ n =>
      simp only [List.replicate_succ, List.cons_append, tcp_read]
      exact tcp_read_loop_err (.Other c) rest n
  · simp only [List.replicate_succ, List.cons_append, tcp_read]
    exact tcp_read_loop_err .NotConnected rest k

/-! ### Helper lemma for send_to -/

lemma udp_send_to_go_all_errs :
    ∀ (errs : List ErrKind) (e0 : ErrKind),
      udp_send_to_go (errs.map fun e => (NbResult.err e, [])) (.error e0) =
        (some (.error (errs.getLastD e0)), [], errs.length) := by
  intro errs
  induction errs with
  | nil => intro e0; rfl
  | cons e rest ih =>
    intro e0
    simp only [List.map_cons, udp_send_to_go, ih e, List.getLastD_cons,
      List.length_cons]

/-- C10: if the target of UdpSocket::send_to resolves to an empty address
list, the call returns Ok(0) having performed no send attempt; and if
every resolved address fails its send attempt with an error, the error of
the last address is returned (after one attempt per address). -/
theorem claim10_send_to_empty_and_all_fail (errs : List ErrKind) (elast : ErrKind)
    (h : errs.getLast? = some elast) :
    udp_send_to [] = (some (.ok 0), [], 0) ∧
    udp_send_to (errs.map fun e => (NbResult.err e, [])) =
      (some (.error elast), [], errs.length) := by
  refine ⟨rfl, ?_⟩
  cases errs with
  | nil => simp at h
  | cons e rest =>
    have hlast : rest.getLastD e = elast := by
      have h2 := List.getLast?_cons (a := e) (l := rest)
      rw [h2] at h
      rw [List.getLastD_eq_getLast?]
      exact Option.some.inj h
    simp only [List.map_cons, udp_send_to, udp_send_to_go,
      udp_send_to_go_all_errs rest e, hlast, List.length_cons]

/-- C10 witness: the theorem applied at two addresses that both fail. -/
theorem claim10_send_to_witness :
    udp_send_to [(NbResult.err (.Other 1), []), (NbResult.err (.Other 2), [])] =
      (some (.error (.Other 2)), [], 2) :=
  (claim10_send_to_empty_and_all_fail [.Other 1, .Other 2] (.Other 2) rfl).2

/-! ### Helper lemmas for the scheduling loop -/

lemma resume_preserves (p : ProcState) (h : Handle) (ty : TaskYield) :
    (resume p h ty).inbox = p.inbox ∧ (resume p h ty).is_exiting = p.is_exiting ∧
    (resume p h ty).neighbor_stealers = p.neighbor_stealers ∧
    (resume p h ty).pid = p.pid ∧
    (ty ≠ .suspend → (resume p h ty).runq = p.runq) := by
  cases ty <;> simp [resume, run_task, yield_with, ProcState.ready]

lemma drain_runq_spec (beh : Nat → TaskYield) :
    ∀ (fuel : Nat) (p : ProcState),
      (∀ h ∈ p.runq, beh h.id ≠ .suspend) → p.runq.length ≤ fuel →
      (drain_runq beh fuel p).2 = p.runq ∧
      (drain_runq beh fuel p).1.runq = [] ∧
      (drain_runq beh fuel p).1.inbox = p.inbox ∧
      (drain_runq beh fuel p).1.is_exiting = p.is_exiting ∧
      (drain_runq beh fuel p).1.neighbor_stealers = p.neighbor_stealers ∧
      (drain_runq beh fuel p).1.pid = p.pid := by
  intro fuel
  induction fuel with
  | zero =>
    intro p hbeh hlen
    have hq : p.runq = [] := List.eq_nil_of_length_eq_zero (Nat.le_zero.1 hlen)
    simp [drain_runq, hq]
  | succ n ih =>
    intro p hbeh hlen
    match hq : p.runq with
    | [] => simp [drain_runq, hq]
    | h :: rest =>
      have hstep : drain_runq beh (n + 1) p =
          ((drain_runq beh n (resume { p with runq := rest } h (beh h.id))).1,
           h :: (drain_runq beh n (resume { p with runq := rest } h (beh h.id))).2) := by
        simp only [drain_runq, hq]
      have hb : beh h.id ≠ .suspend := hbeh h (by simp [hq])
      have hpres := resume_preserves { p with runq := rest } h (beh h.id)
      have hrunq1 : (resume { p with runq := rest } h (beh h.id)).runq = rest :=
        hpres.2.2.2.2 hb
      have hsub : ∀ x ∈ (resume { p with runq := rest } h (beh h.id)).runq,
          beh x.id ≠ .suspend := by
        rw [hrunq1]
        exact fun x hx => hbeh x (by simp [hq, hx])
      have hlen1 : (resume { p with runq := rest } h (beh h.id)).runq.length ≤ n := by
        rw [hrunq1]
        have hl := hlen
        rw [hq] at hl
        simpa using Nat.succ_le_succ_iff.1 hl
      have ihp := ih (resume { p with runq := rest } h (beh h.id)) hsub hlen1
      rw [hstep]
      refine ⟨?_, ihp.2.1, ?_, ?_, ?_, ?_⟩
      · simp only [hq]
        rw [ihp.1, hrunq1]
      · rw [ihp.2.2.1, hpres.1]
      · rw [ihp.2.2.2.1, hpres.2.1]
      · rw [ihp.2.2.2.2.1, hpres.2.2.1]
      · rw [ihp.2.2.2.2.2, hpres.2.2.2.1]

lemma steal_scan_mem :
    ∀ (cnt : Nat) (ns : List (List Handle)) (r k i : Nat) (h : Handle),
      steal_scan ns r k cnt = some (i, h) →
      ∃ j, j < cnt ∧ i = (r + (k + j)) % ns.length ∧
        (ns.getD i []).head? = some h ∧
        ∀ j', j' < j → (ns.getD ((r + (k + j')) % ns.length) []).head? = none := by
  intro cnt
  induction cnt with
  | zero => intro ns r k i h hs; simp [steal_scan] at hs
  | succ n ih =>
    intro ns r k i h hs
    rcases hh : (ns.getD ((r + k) % ns.length) []).head? with _ | h0
    · rw [steal_scan, hh] at hs
      obtain ⟨j, hj, hi, hhead, hprev⟩ := ih ns r (k + 1) i h hs
      refine ⟨j + 1, Nat.succ_lt_succ hj, ?_, hhead, ?_⟩
      · rw [hi]
        congr 1
        omega
      · intro j' hj'
        match j', hj' with
        | 0, _ => simpa using hh
        | m + 1, hm =>
          have := hprev m (Nat.lt_of_succ_lt_succ hm)
          have harr : r + (k + (m + 1)) = r + (k + 1 + m) := by omega
          rw [harr]
          exact this
    · rw [steal_scan, hh] at hs
      obtain ⟨rfl, rfl⟩ : (r + k) % ns.length = i ∧ h0 = h := by
        have := Option.some.inj hs
        exact ⟨congrArg Prod.fst this, congrArg Prod.snd this⟩
      refine ⟨0, Nat.succ_pos n, by rw [Nat.add_zero], hh, ?_⟩
      intro j' hj'
      exact absurd hj' (Nat.not_lt_zero j')

lemma steal_scan_none_of_all_empty :
    ∀ (cnt : Nat) (ns : List (List Handle)) (r k : Nat),
      (∀ j, j < cnt → (ns.getD ((r + (k + j)) % ns.length) []).head? = none) →
      steal_scan ns r k cnt = none := by
  intro cnt
  induction cnt with
  | zero => intro ns r k _; rfl
  | succ n ih =>
    intro ns r k hall
    have h0 : (ns.getD ((r + k) % ns.length) []).head? = none := by
      have := hall 0 (Nat.succ_pos n)
      simpa using this
    rw [steal_scan, h0]
    refine ih ns r (k + 1) ?_
    intro j hj
    have := hall (j + 1) (Nat.succ_lt_succ hj)
    have harr : r + (k + (j + 1)) = r + (k + 1 + j) := by omega
    rw [harr] at this
    exact this

lemma getD_all_empty (ns : List (List Handle)) (hall : ∀ l ∈ ns, l = []) :
    ∀ i : Nat, ns.getD i [] = [] := by
  induction ns with
  | nil => intro i; cases i <;> rfl
  | cons a t ih =>
    intro i
    cases i with
    | zero => exact hall a (by simp)
    | succ m => exact ih (fun l hl => hall l (by simp [hl])) m

/-- C3: each iteration of the scheduling loop takes work in a fixed
order: the local run deque is drained first, each popped handle resumed
in pop order; then the loop exits if is_exiting is set; then the inbox is
drained non-blockingly — NewNeighbor appends a stealer, Shutdown latches
is_exiting, Ready records this processor as the handle preference and
enqueues it locally — and if anything was enqueued or exit was latched
the loop restarts before stealing; then every neighbor is scanned exactly
once starting from the random offset and the first successful steal is
resumed before restarting; only when all of that yields nothing does the
iteration block on the inbox. -/
theorem claim3_schedule_order (beh : Nat → TaskYield) (fuel rand_idx : Nat)
    (p : ProcState) :
    ((∀ h ∈ p.runq, beh h.id ≠ .suspend) → p.runq.length ≤ fuel →
      (drain_runq beh fuel p).2 = p.runq ∧
      (drain_runq beh fuel p).1.runq = [] ∧
      ∃ tail_evs, (schedule_iter beh fuel rand_idx p).2.1 =
        p.runq.map SchedEvent.resumed ++ tail_evs) ∧
    ((drain_runq beh fuel p).1.is_exiting = true →
      schedule_iter beh fuel rand_idx p =
        ((drain_runq beh fuel p).1,
         (drain_runq beh fuel p).2.map SchedEvent.resumed, .exited)) ∧
    (∀ (q : ProcState) (flag : Bool) (st : List Handle) (c : Handle),
      handle_msg (q, flag) (.NewNeighbor st) =
        ({ q with neighbor_stealers := q.neighbor_stealers ++ [st] }, flag) ∧
      handle_msg (q, flag) .Shutdown = ({ q with is_exiting := true }, true) ∧
      handle_msg (q, flag) (.Ready c) =
        (q.ready (c.set_preferred_processor (some q.pid)), true)) ∧
    ((drain_runq beh fuel p).1.is_exiting = false →
      (drain_inbox (drain_runq beh fuel p).1).2 = true →
      schedule_iter beh fuel rand_idx p =
        ((drain_inbox (drain_runq beh fuel p).1).1,
         (drain_runq beh fuel p).2.map SchedEvent.resumed, .looped)) ∧
    (∀ (ns : List (List Handle)) (r i : Nat) (h : Handle),
      (steal_scan ns r 0 ns.length = some (i, h) →
        ∃ j, j < ns.length ∧ i = (r + j) % ns.length ∧
          (ns.getD i []).head? = some h ∧
          ∀ j', j' < j → (ns.getD ((r + j') % ns.length) []).head? = none) ∧
      ((∀ j, j < ns.length → (ns.getD ((r + j) % ns.length) []).head? = none) →
        steal_scan ns r 0 ns.length = none)) ∧
    ((drain_runq beh fuel p).1.is_exiting = false →
      (drain_inbox (drain_runq beh fuel p).1).2 = false →
      ∀ i h,
        steal_scan (drain_inbox (drain_runq beh fuel p).1).1.neighbor_stealers
            rand_idx 0
            (drain_inbox (drain_runq beh fuel p).1).1.neighbor_stealers.length =
          some (i, h) →
        (schedule_iter beh fuel rand_idx p).2.1 =
          (drain_runq beh fuel p).2.map SchedEvent.resumed ++ [.stole i h] ∧
        (schedule_iter beh fuel rand_idx p).2.2 = .looped) ∧
    ((drain_runq beh fuel p).1.is_exiting = false →
      (drain_inbox (drain_runq beh fuel p).1).2 = false →
      (∀ l ∈ (drain_inbox (drain_runq beh fuel p).1).1.neighbor_stealers, l = []) →
      (schedule_iter beh fuel rand_idx p).2.1 =
        (drain_runq beh fuel p).2.map SchedEvent.resumed ++ [.blockedOnInbox] ∧
      (schedule_iter beh fuel rand_idx p).2.2 = .blockedOnInbox) := by
  refine ⟨?_, ?_, ?_, ?_, ?_, ?_, ?_⟩
  · intro hbeh hlen
    have hspec := drain_runq_spec beh fuel p hbeh hlen
    refine ⟨hspec.1, hspec.2.1, ?_⟩
    simp only [schedule_iter]
    split
    · exact ⟨[], by simp [hspec.1]⟩
    · split
      · exact ⟨[], by simp [hspec.1]⟩
      · split
        · rename_i ih heq
          exact ⟨[SchedEvent.stole ih.1 ih.2], by simp [hspec.1]⟩
        · exact ⟨[.blockedOnInbox], by simp [hspec.1]⟩
  · intro hex
    simp [schedule_iter, hex]
  · intro q flag st c
    exact ⟨rfl, rfl, rfl⟩
  · intro hex hflag
    simp [schedule_iter, hex, hflag]
  · intro ns r i h
    constructor
    · intro hs
      obtain ⟨j, hj, hi, hhead, hprev⟩ := steal_scan_mem ns.length ns r 0 i h hs
      refine ⟨j, hj, by simpa using hi, hhead, ?_⟩
      intro j' hj'
      have := hprev j' hj'
      simpa using this
    · intro hall
      refine steal_scan_none_of_all_empty ns.length ns r 0 ?_
      intro j hj
      simpa using hall j hj
  · intro hex hflag i h hs
    simp [schedule_iter, hex, hflag, hs]
  · intro hex hflag hall
    have hnone :
        steal_scan (drain_inbox (drain_runq beh fuel p).1).1.neighbor_stealers
            rand_idx 0
            (drain_inbox (drain_runq beh fuel p).1).1.neighbor_stealers.length =
          none := by
      refine steal_scan_none_of_all_empty _ _ rand_idx 0 ?_
      intro j _
      rw [getD_all_empty _ hall]
      rfl
    simp [schedule_iter, hex, hflag, hnone]

/-- C3 witness: the theorem applied at a concrete processor state with
one local task (which finishes when resumed), a pending Shutdown message
and one nonempty neighbor: the local task is drained first and the
inbox-latched exit restarts the loop before stealing. -/
theorem claim3_schedule_order_witness :
    (drain_runq (fun _ => .finish) 1
        { pid := 0, current_coro := none, last_state := .Suspended,
          take_coro_cb := false, runq := [⟨1, none⟩],
          inbox := [.Shutdown], neighbor_stealers := [[⟨2, none⟩]],
          is_exiting := false, cb_calls := [], finished := [] }).2 =
      [⟨1, none⟩] ∧
    schedule_iter (fun _ => .finish) 1 0
        { pid := 0, current_coro := none, last_state := .Suspended,
          take_coro_cb := false, runq := [⟨1, none⟩],
          inbox := [.Shutdown], neighbor_stealers := [[⟨2, none⟩]],
          is_exiting := false, cb_calls := [], finished := [] } =
      ((drain_inbox (drain_runq (fun _ => .finish) 1
          { pid := 0, current_coro := none, last_state := .Suspended,
            take_coro_cb := false, runq := [⟨1, none⟩],
            inbox := [.Shutdown], neighbor_stealers := [[⟨2, none⟩]],
            is_exiting := false, cb_calls := [], finished := [] }).1).1,
       [.resumed ⟨1, none⟩], .looped) := by
  constructor
  · exact ((claim3_schedule_order (fun _ => .finish) 1 0 _).1
      (by intro h hmem; simp) (by simp)).1
  · have happ := (claim3_schedule_order (fun _ => .finish) 1 0
      { pid := 0, current_coro := none, last_state := .Suspended,
        take_coro_cb := false, runq := [⟨1, none⟩],
        inbox := [.Shutdown], neighbor_stealers := [[⟨2, none⟩]],
        is_exiting := false, cb_calls := [], finished := [] }).2.2.2.1
      (by rfl) (by rfl)
    simpa using happ

end Coio
